import Mathlib

/-!
Verification of the MasterBike backend purchase-processing flow
(`src/server.js`, route `POST /api/purchase`, lines 499-575) against its
natural-language specification.

The document store is modelled as an association list from item ids to
inventory items.  The transactional session of the source (start / commit /
abort) is modelled by threading the inventory through the per-line loop and
discarding the intermediate inventory when the loop throws: the committed
post-state of a failed purchase is the original inventory, exactly the
semantics of `session.abortTransaction()` in the `catch` handler
(server.js lines 566-574).

JS numbers appearing in stock / quantity / price positions are modelled as
`Int` (the purchase flow only adds, subtracts, multiplies and compares
them).  Request fields that may be absent (`undefined`) are modelled as
`Option`; the truthiness test `!x` on a string field is `strFalsy`, true
for `undefined` and for the empty string.
-/

namespace MasterBike

/-- Item identity (`_id` of an `InventoryItem` document). -/
abbrev ItemId := Nat

/-- The fields of `itemSchema` (server.js lines 27-37) that the purchase
flow reads or writes: `name`, `price`, `stock`.  The remaining descriptive
fields (category, brand, type, partType, compatibility, imageUrl) are never
touched by the purchase processor and are omitted. -/
structure InventoryItem where
  name : String
  price : Int
  stock : Int
  deriving Repr, DecidableEq

/-- The inventory collection: an association list from item id to item.
`findById` resolves the first entry with the given id. -/
abbrev Inventory := List (ItemId × InventoryItem)

/-- Resolve an id in the collection (first matching entry), the model of
`InventoryItem.findById(itemId)` for a defined `itemId`. -/
def findEntry : Inventory → ItemId → Option InventoryItem
  | [], _ => none
  | (i, it) :: rest, id => if i = id then some it else findEntry rest id

/-- `inventoryItem.save({ session })` (server.js line 535): persist the
updated document under its id, leaving every other entry unchanged. -/
def saveItem (inv : Inventory) (id : ItemId) (it : InventoryItem) : Inventory :=
  inv.map (fun e => if e.1 = id then (e.1, it) else e)

/-- One element of the request's `cartItems` array.  The handler
destructures `const { _id: itemId, quantity, price } = item`
(server.js line 519): only the `_id` field is read; an `itemId` field, if
the client sends one, is ignored.  Both are kept here so that this fact is
provable. -/
structure CartLine where
  _id : Option ItemId
  itemId : Option ItemId
  quantity : Int
  price : Int
  deriving Repr, DecidableEq

/-- One element of `dispatchRecordSchema.items`
(server.js lines 170-177, built at lines 538-543). -/
structure DispatchLine where
  itemId : ItemId
  name : String
  quantity : Int
  priceAtPurchase : Int
  deriving Repr, DecidableEq

/-- The dispatch record constructed at server.js lines 548-557.  The
generated Mongo identity and the `createdAt` timestamp are not modelled;
`deliveryDate` is kept as the submitted string. -/
structure DispatchRecord where
  items : List DispatchLine
  totalAmount : Int
  deliveryDate : String
  customerName : String
  customerEmail : String
  status : String
  deriving Repr, DecidableEq

/-- The request body of `POST /api/purchase` (server.js line 500).
Fields are options: `none` models an absent (`undefined`) field. -/
structure PurchaseRequest where
  cartItems : Option (List CartLine)
  deliveryDate : Option String
  customerName : Option String
  customerEmail : Option String
  deriving Repr, DecidableEq

/-- What one call of the purchase handler produces: the HTTP status, the
`message` of the JSON body, the committed inventory state, and the dispatch
record it persisted (if any). -/
structure PurchaseOutcome where
  status : Nat
  message : String
  inventory : Inventory
  record : Option DispatchRecord
  deriving Repr, DecidableEq

/-- Rendering of the interpolated id in the not-found message:
`undefined` when the cart line has no `_id` field. -/
def idText : Option ItemId → String
  | none => "undefined"
  | some id => toString id

/-- `Producto con ID ${itemId} no encontrado en el inventario.`
(server.js line 525). -/
def notFoundMsg (oid : Option ItemId) : String :=
  "Producto con ID " ++ idText oid ++ " no encontrado en el inventario."

/-- `Stock insuficiente para el producto: ${name}. Disponible: ${stock},
Solicitado: ${quantity}` (server.js line 530). -/
def insufficientMsg (name : String) (stock quantity : Int) : String :=
  "Stock insuficiente para el producto: " ++ name ++ ". Disponible: " ++
    toString stock ++ ", Solicitado: " ++ toString quantity

/-- The `for (const item of cartItems)` loop of the handler
(server.js lines 518-545): resolve the line's `_id`, throw if the item is
missing, throw if `inventoryItem.stock < quantity`, otherwise decrement the
stock, persist the item, and accumulate the dispatch line
(`priceAtPurchase` is the cart's `price`) and the running
`totalPurchaseAmount += price * quantity`.  `findById(undefined)` resolves
to `null`, hence a line without `_id` throws the not-found error with the
id rendered as `undefined`. -/
def processLines : Inventory → List CartLine → Except String (Inventory × List DispatchLine × Int)
  | inv, [] => .ok (inv, [], 0)
  | inv, line :: rest =>
    match line._id with
    | none => .error (notFoundMsg none)
    | some id =>
      match findEntry inv id with
      | none => .error (notFoundMsg (some id))
      | some item =>
        if item.stock < line.quantity then
          .error (insufficientMsg item.name item.stock line.quantity)
        else
          match processLines (saveItem inv id { item with stock := item.stock - line.quantity }) rest with
          | .error e => .error e
          | .ok (inv2, ds, t) =>
            .ok (inv2,
              { itemId := id, name := item.name, quantity := line.quantity,
                priceAtPurchase := line.price } :: ds,
              line.price * line.quantity + t)

/-- JS truthiness test `!x` for an optional string field: true when the
field is absent or the empty string. -/
def strFalsy : Option String → Bool
  | none => true
  | some s => s = ""

/-- The full `POST /api/purchase` handler (server.js lines 499-575):
validation (empty/absent cart, then missing delivery/customer fields, each
a 400 before any transaction is opened), then the per-line loop inside a
transaction; an exception aborts the transaction (committed inventory is
the original one, no record) and yields a 500 whose message prefixes the
thrown message with `Error al procesar la compra: `; success commits the
decremented inventory and persists one dispatch record with status
`Pendiente`. -/
def processPurchase (inv : Inventory) (req : PurchaseRequest) : PurchaseOutcome :=
  match req.cartItems with
  | none => ⟨400, "El carrito está vacío.", inv, none⟩
  | some cart =>
    if cart.isEmpty then
      ⟨400, "El carrito está vacío.", inv, none⟩
    else if strFalsy req.deliveryDate || strFalsy req.customerName || strFalsy req.customerEmail then
      ⟨400, "Faltan detalles de la compra (fecha de despacho, nombre o email del cliente).", inv, none⟩
    else
      match processLines inv cart with
      | .error e => ⟨500, "Error al procesar la compra: " ++ e, inv, none⟩
      | .ok (inv2, ds, total) =>
        ⟨200, "Compra procesada y stock actualizado. Registro de despacho creado.", inv2,
          some { items := ds, totalAmount := total,
                 deliveryDate := req.deliveryDate.getD "",
                 customerName := req.customerName.getD "",
                 customerEmail := req.customerEmail.getD "",
                 status := "Pendiente" }⟩

/-- Whether the per-line loop runs to completion without throwing. -/
def purchaseOk (inv : Inventory) (cart : List CartLine) : Bool :=
  match processLines inv cart with
  | .ok _ => true
  | .error _ => false

/-- Total quantity a cart requests of one item id (summed over every line
whose `_id` is that id). -/
def sumQty : List CartLine → ItemId → Int
  | [], _ => 0
  | l :: ls, id => (if l._id = some id then l.quantity else 0) + sumQty ls id

/-- `Σ price × quantity` over the cart, the specified value of
`totalAmount`. -/
def linesTotal : List CartLine → Int
  | [] => 0
  | l :: ls => l.price * l.quantity + linesTotal ls

/-- The reason one cart line throws against a given inventory state, if it
does: the not-found error when its `_id` resolves to no item, the
insufficient-stock error when the resolved item's stock is below the
requested quantity (the stock check fails exactly when
`stock < quantity`), and `none` when the line succeeds. -/
def lineError (inv : Inventory) (line : CartLine) : Option String :=
  match line._id with
  | none => some (notFoundMsg none)
  | some id =>
    match findEntry inv id with
    | none => some (notFoundMsg (some id))
    | some item =>
      if item.stock < line.quantity then
        some (insufficientMsg item.name item.stock line.quantity)
      else
        none

/-- The per-line snapshot relation between a cart line and the dispatch
line built from it (server.js lines 538-543): quantity and
`priceAtPurchase` are copied from the cart line, `itemId` is the resolved
id and `name` is the resolved item's name in the given inventory. -/
def lineSnapshot (inv : Inventory) (l : CartLine) (d : DispatchLine) : Prop :=
  d.quantity = l.quantity ∧ d.priceAtPurchase = l.price ∧
    ∃ id item, l._id = some id ∧ d.itemId = id ∧
      findEntry inv id = some item ∧ d.name = item.name

/-- The `stock ≥ 0` invariant of `itemSchema` (server.js line 35,
`min: 0`). -/
def invNonneg (inv : Inventory) : Prop :=
  ∀ e ∈ inv, 0 ≤ e.2.stock

instance (inv : Inventory) : Decidable (invNonneg inv) :=
  List.decidableBAll _ inv

theorem findEntry_cons (i : ItemId) (it : InventoryItem) (rest : Inventory) (id : ItemId) :
    findEntry ((i, it) :: rest) id = if i = id then some it else findEntry rest id := rfl

theorem saveItem_cons (i : ItemId) (item : InventoryItem) (rest : Inventory)
    (id : ItemId) (it : InventoryItem) :
    saveItem ((i, item) :: rest) id it =
      (if i = id then (i, it) else (i, item)) :: saveItem rest id it := rfl

theorem findEntry_saveItem_self (inv : Inventory) (id : ItemId) (it : InventoryItem) :
    findEntry (saveItem inv id it) id = (findEntry inv id).map (fun _ => it) := by
  induction inv with
  | nil => rfl
  | cons e rest ih =>
    rcases e with ⟨i, item⟩
    by_cases h : i = id
    · rw [saveItem_cons, if_pos h, findEntry_cons, if_pos h, findEntry_cons, if_pos h]
      rfl
    · rw [saveItem_cons, if_neg h, findEntry_cons, if_neg h, findEntry_cons, if_neg h, ih]

theorem findEntry_saveItem_ne (inv : Inventory) (id id' : ItemId) (it : InventoryItem)
    (h : id' ≠ id) :
    findEntry (saveItem inv id it) id' = findEntry inv id' := by
  induction inv with
  | nil => rfl
  | cons e rest ih =>
    rcases e with ⟨i, item⟩
    by_cases hi : i = id
    · have hi' : i ≠ id' := by rw [hi]; exact fun hc => h hc.symm
      rw [saveItem_cons, if_pos hi, findEntry_cons, if_neg hi', findEntry_cons, if_neg hi', ih]
    · rw [saveItem_cons, if_neg hi, findEntry_cons, findEntry_cons, ih]

theorem processLines_cons_id_none (inv : Inventory) (line : CartLine) (rest : List CartLine)
    (h : line._id = none) :
    processLines inv (line :: rest) = .error (notFoundMsg none) := by
  simp [processLines, h]

theorem processLines_cons_missing (inv : Inventory) (line : CartLine) (rest : List CartLine)
    (id : ItemId) (hid : line._id = some id) (hfind : findEntry inv id = none) :
    processLines inv (line :: rest) = .error (notFoundMsg (some id)) := by
  simp [processLines, hid, hfind]

theorem processLines_cons_short (inv : Inventory) (line : CartLine) (rest : List CartLine)
    (id : ItemId) (item : InventoryItem) (hid : line._id = some id)
    (hfind : findEntry inv id = some item) (hst : item.stock < line.quantity) :
    processLines inv (line :: rest) =
      .error (insufficientMsg item.name item.stock line.quantity) := by
  simp [processLines, hid, hfind, hst]

theorem processLines_cons_step_error (inv : Inventory) (line : CartLine) (rest : List CartLine)
    (id : ItemId) (item : InventoryItem) (e : String) (hid : line._id = some id)
    (hfind : findEntry inv id = some item) (hst : ¬(item.stock < line.quantity))
    (hrec : processLines (saveItem inv id { item with stock := item.stock - line.quantity }) rest =
      .error e) :
    processLines inv (line :: rest) = .error e := by
  simp [processLines, hid, hfind, hst, hrec]

theorem processLines_cons_step_ok (inv : Inventory) (line : CartLine) (rest : List CartLine)
    (id : ItemId) (item : InventoryItem) (inv2 : Inventory) (ds2 : List DispatchLine) (t2 : Int)
    (hid : line._id = some id) (hfind : findEntry inv id = some item)
    (hst : ¬(item.stock < line.quantity))
    (hrec : processLines (saveItem inv id { item with stock := item.stock - line.quantity }) rest =
      .ok (inv2, ds2, t2)) :
    processLines inv (line :: rest) =
      .ok (inv2,
        { itemId := id, name := item.name, quantity := line.quantity,
          priceAtPurchase := line.price } :: ds2,
        line.price * line.quantity + t2) := by
  simp [processLines, hid, hfind, hst, hrec]

theorem processLines_cons_ok (inv : Inventory) (line : CartLine) (rest : List CartLine)
    (inv' : Inventory) (ds : List DispatchLine) (t : Int)
    (h : processLines inv (line :: rest) = .ok (inv', ds, t)) :
    ∃ id item ds2 t2, line._id = some id ∧ findEntry inv id = some item ∧
      ¬(item.stock < line.quantity) ∧
      processLines (saveItem inv id { item with stock := item.stock - line.quantity }) rest =
        .ok (inv', ds2, t2) ∧
      ds = { itemId := id, name := item.name, quantity := line.quantity,
             priceAtPurchase := line.price } :: ds2 ∧
      t = line.price * line.quantity + t2 := by
  cases hid : line._id with
  | none => rw [processLines_cons_id_none inv line rest hid] at h; exact absurd h (by simp)
  | some id =>
    cases hfind : findEntry inv id with
    | none => rw [processLines_cons_missing inv line rest id hid hfind] at h
              exact absurd h (by simp)
    | some item =>
      by_cases hst : item.stock < line.quantity
      · rw [processLines_cons_short inv line rest id item hid hfind hst] at h
        exact absurd h (by simp)
      · cases hrec : processLines
            (saveItem inv id { item with stock := item.stock - line.quantity }) rest with
        | error e =>
          rw [processLines_cons_step_error inv line rest id item e hid hfind hst hrec] at h
          exact absurd h (by simp)
        | ok out =>
          rcases out with ⟨inv2, ds2, t2⟩
          rw [processLines_cons_step_ok inv line rest id item inv2 ds2 t2 hid hfind hst hrec] at h
          simp only [Except.ok.injEq, Prod.mk.injEq] at h
          obtain ⟨h1, h2, h3⟩ := h
          subst h1
          exact ⟨id, item, ds2, t2, rfl, hfind, hst, hrec, h2.symm, h3.symm⟩

theorem processLines_cons_error (inv : Inventory) (line : CartLine) (rest : List CartLine)
    (e : String) (h : lineError inv line = some e) :
    processLines inv (line :: rest) = .error e := by
  cases hid : line._id with
  | none =>
    simp only [lineError, hid, Option.some.injEq] at h
    rw [processLines_cons_id_none inv line rest hid, h]
  | some id =>
    cases hfind : findEntry inv id with
    | none =>
      simp only [lineError, hid, hfind, Option.some.injEq] at h
      rw [processLines_cons_missing inv line rest id hid hfind, h]
    | some item =>
      by_cases hst : item.stock < line.quantity
      · simp only [lineError, hid, hfind, if_pos hst, Option.some.injEq] at h
        rw [processLines_cons_short inv line rest id item hid hfind hst, h]
      · simp only [lineError, hid, hfind, if_neg hst] at h
        exact absurd h (by simp)

theorem processLines_append_error (xs : List CartLine) :
    ∀ inv inv1 ds t e ys,
      processLines inv xs = .ok (inv1, ds, t) →
      processLines inv1 ys = .error e →
      processLines inv (xs ++ ys) = .error e := by
  induction xs with
  | nil =>
    intro inv inv1 ds t e ys hok herr
    simp only [processLines, Except.ok.injEq, Prod.mk.injEq] at hok
    obtain ⟨h1, -, -⟩ := hok
    subst h1
    simpa using herr
  | cons line rest ih =>
    intro inv inv1 ds t e ys hok herr
    obtain ⟨id, item, ds2, t2, hid, hfind, hst, hrec, -, -⟩ :=
      processLines_cons_ok inv line rest inv1 ds t hok
    have hall := ih _ _ _ _ e ys hrec herr
    have : (line :: rest) ++ ys = line :: (rest ++ ys) := rfl
    rw [this]
    exact processLines_cons_step_error inv line (rest ++ ys) id item e hid hfind hst hall

theorem processLines_stock (lines : List CartLine) :
    ∀ inv inv' ds t, processLines inv lines = .ok (inv', ds, t) →
      ∀ id, (findEntry inv' id).map InventoryItem.stock =
        (findEntry inv id).map (fun it => it.stock - sumQty lines id) := by
  induction lines with
  | nil =>
    intro inv inv' ds t h id
    simp only [processLines, Except.ok.injEq, Prod.mk.injEq] at h
    obtain ⟨h1, -, -⟩ := h
    subst h1
    simp [sumQty]
  | cons line rest ih =>
    intro inv inv' ds t h id
    obtain ⟨id0, item, ds2, t2, hid, hfind, hst, hrec, -, -⟩ :=
      processLines_cons_ok inv line rest inv' ds t h
    have hih := ih _ _ _ _ hrec id
    by_cases hdup : id = id0
    · subst hdup
      rw [hih, findEntry_saveItem_self, hfind]
      simp [sumQty, hid, sub_sub]
    · rw [hih, findEntry_saveItem_ne _ _ _ _ hdup]
      have : line._id ≠ some id := by rw [hid]; simpa using fun hc => hdup hc.symm
      cases findEntry inv id <;> simp [sumQty, this]

theorem findEntry_name_after_save (inv : Inventory) (id id' : ItemId)
    (item it2 : InventoryItem) (hf : findEntry inv id = some item)
    (hn : it2.name = item.name) :
    (findEntry (saveItem inv id it2) id').map InventoryItem.name =
      (findEntry inv id').map InventoryItem.name := by
  by_cases h : id' = id
  · subst h
    rw [findEntry_saveItem_self, hf]
    simp [hn]
  · rw [findEntry_saveItem_ne _ _ _ _ h]

theorem processLines_snapshots (lines : List CartLine) :
    ∀ inv inv' ds t, processLines inv lines = .ok (inv', ds, t) →
      List.Forall₂ (lineSnapshot inv) lines ds := by
  induction lines with
  | nil =>
    intro inv inv' ds t h
    simp only [processLines, Except.ok.injEq, Prod.mk.injEq] at h
    obtain ⟨-, h2, -⟩ := h
    subst h2
    exact List.Forall₂.nil
  | cons line rest ih =>
    intro inv inv' ds t h
    obtain ⟨id, item, ds2, t2, hid, hfind, hst, hrec, hds, -⟩ :=
      processLines_cons_ok inv line rest inv' ds t h
    subst hds
    refine List.Forall₂.cons ⟨rfl, rfl, id, item, hid, rfl, hfind, rfl⟩ ?_
    have hrest := ih _ _ _ _ hrec
    refine hrest.imp ?_
    intro l d hld
    obtain ⟨hq, hp, id', item', hid', hd', hfind', hname'⟩ := hld
    have hmap := findEntry_name_after_save inv id id' item
      { item with stock := item.stock - line.quantity } hfind rfl
    rw [hfind'] at hmap
    cases hfe : findEntry inv id' with
    | none => rw [hfe] at hmap; simp at hmap
    | some item'' =>
      rw [hfe] at hmap
      have hnm : item'.name = item''.name := by simpa using hmap
      exact ⟨hq, hp, id', item'', hid', hd', hfe, by rw [hname', hnm]⟩

theorem processLines_total (lines : List CartLine) :
    ∀ inv inv' ds t, processLines inv lines = .ok (inv', ds, t) →
      t = linesTotal lines := by
  induction lines with
  | nil =>
    intro inv inv' ds t h
    simp only [processLines, Except.ok.injEq, Prod.mk.injEq] at h
    obtain ⟨-, -, h3⟩ := h
    rw [← h3]; rfl
  | cons line rest ih =>
    intro inv inv' ds t h
    obtain ⟨id, item, ds2, t2, -, -, -, hrec, -, ht⟩ :=
      processLines_cons_ok inv line rest inv' ds t h
    rw [ht, linesTotal, ih _ _ _ _ hrec]

theorem saveItem_nonneg (inv : Inventory) (id : ItemId) (it : InventoryItem)
    (hinv : invNonneg inv) (hit : 0 ≤ it.stock) : invNonneg (saveItem inv id it) := by
  intro e he
  simp only [saveItem, List.mem_map] at he
  obtain ⟨a, ha, hae⟩ := he
  by_cases h : a.1 = id
  · rw [if_pos h] at hae
    rw [← hae]
    exact hit
  · rw [if_neg h] at hae
    rw [← hae]
    exact hinv a ha

theorem processLines_nonneg (lines : List CartLine) :
    ∀ inv inv' ds t, invNonneg inv → processLines inv lines = .ok (inv', ds, t) →
      invNonneg inv' := by
  induction lines with
  | nil =>
    intro inv inv' ds t hinv h
    simp only [processLines, Except.ok.injEq, Prod.mk.injEq] at h
    obtain ⟨h1, -, -⟩ := h
    subst h1
    exact hinv
  | cons line rest ih =>
    intro inv inv' ds t hinv h
    obtain ⟨id, item, ds2, t2, -, -, hst, hrec, -, -⟩ :=
      processLines_cons_ok inv line rest inv' ds t h
    exact ih _ _ _ _ (saveItem_nonneg inv id _ hinv
      (by push_neg at hst; exact sub_nonneg.mpr hst)) hrec

theorem processPurchase_error_eq (inv : Inventory) (req : PurchaseRequest)
    (cart : List CartLine) (e : String) (hc : req.cartItems = some cart) (hne : cart ≠ [])
    (hd : strFalsy req.deliveryDate = false) (hn : strFalsy req.customerName = false)
    (hm : strFalsy req.customerEmail = false)
    (herr : processLines inv cart = .error e) :
    processPurchase inv req =
      ⟨500, "Error al procesar la compra: " ++ e, inv, none⟩ := by
  have hemp : cart.isEmpty = false := by
    cases cart with
    | nil => exact absurd rfl hne
    | cons a l => rfl
  simp [processPurchase, hc, hemp, hd, hn, hm, herr]

theorem processPurchase_ok_eq (inv : Inventory) (req : PurchaseRequest)
    (cart : List CartLine) (inv2 : Inventory) (ds : List DispatchLine) (t : Int)
    (hc : req.cartItems = some cart) (hne : cart ≠ [])
    (hd : strFalsy req.deliveryDate = false) (hn : strFalsy req.customerName = false)
    (hm : strFalsy req.customerEmail = false)
    (hok : processLines inv cart = .ok (inv2, ds, t)) :
    processPurchase inv req =
      ⟨200, "Compra procesada y stock actualizado. Registro de despacho creado.", inv2,
        some { items := ds, totalAmount := t,
               deliveryDate := req.deliveryDate.getD "",
               customerName := req.customerName.getD "",
               customerEmail := req.customerEmail.getD "",
               status := "Pendiente" }⟩ := by
  have hemp : cart.isEmpty = false := by
    cases cart with
    | nil => exact absurd rfl hne
    | cons a l => rfl
  simp [processPurchase, hc, hemp, hd, hn, hm, hok]

/-- Every call of the purchase handler either leaves the committed
inventory untouched (all 400 branches and the abort path) or committed the
result of a run of the per-line loop that completed on the submitted cart. -/
theorem processPurchase_inventory_cases (inv : Inventory) (req : PurchaseRequest) :
    (processPurchase inv req).inventory = inv ∨
      ∃ cart inv2 ds t, req.cartItems = some cart ∧
        processLines inv cart = .ok (inv2, ds, t) ∧
        (processPurchase inv req).inventory = inv2 := by
  cases hc : req.cartItems with
  | none => left; simp [processPurchase, hc]
  | some cart =>
    by_cases hemp : cart.isEmpty = true
    · left; simp [processPurchase, hc, hemp]
    · have hemp' : cart.isEmpty = false := by
        cases he : cart.isEmpty
        · rfl
        · exact absurd he hemp
      by_cases hval : (strFalsy req.deliveryDate || strFalsy req.customerName ||
          strFalsy req.customerEmail) = true
      · left; simp [processPurchase, hc, hemp', hval]
      · have hval' : (strFalsy req.deliveryDate || strFalsy req.customerName ||
            strFalsy req.customerEmail) = false := by
          cases hv : (strFalsy req.deliveryDate || strFalsy req.customerName ||
              strFalsy req.customerEmail)
          · rfl
          · exact absurd hv hval
        cases hpl : processLines inv cart with
        | error e => left; simp [processPurchase, hc, hemp', hval', hpl]
        | ok out =>
          rcases out with ⟨inv2, ds, t⟩
          right
          refine ⟨cart, inv2, ds, t, rfl, hpl, ?_⟩
          simp [processPurchase, hc, hemp', hval', hpl]

/-- A dispatch record as stored, together with the `createdAt` timestamp
added by the `timestamps: true` schema option
(server.js line 185). -/
structure StoredDispatchRecord where
  createdAt : Nat
  record : DispatchRecord
  deriving Repr, DecidableEq

/-- Ordering requirement on the listing: newest first by creation time. -/
def NewestFirst (l : List StoredDispatchRecord) : Prop :=
  List.Pairwise (fun a b => b.createdAt ≤ a.createdAt) l

/-- Modelled from the spec: helper for `getDispatchRecords` below —
insert one stored record into a newest-first list. -/
def insertNewest (r : StoredDispatchRecord) :
    List StoredDispatchRecord → List StoredDispatchRecord
  | [] => [r]
  | x :: xs =>
    if x.createdAt ≤ r.createdAt then r :: x :: xs else x :: insertNewest r xs

/-- Modelled from the spec: the `GET /api/dispatch-records` route handler
is not among the files under `src/` (src holds only `server.js`, which does
not define this route, and the deployment Dockerfile); the spec states it
"returns all dispatch records, newest first by creation time".  Modelled
as sorting the stored records by descending `createdAt`. -/
def getDispatchRecords (recs : List StoredDispatchRecord) : List StoredDispatchRecord :=
  match recs with
  | [] => []
  | x :: xs => insertNewest x (getDispatchRecords xs)

theorem insertNewest_perm (r : StoredDispatchRecord) (l : List StoredDispatchRecord) :
    (insertNewest r l).Perm (r :: l) := by
  induction l with
  | nil => exact List.Perm.refl _
  | cons x xs ih =>
    by_cases h : x.createdAt ≤ r.createdAt
    · simp only [insertNewest, if_pos h]
      exact List.Perm.refl _
    · simp only [insertNewest, if_neg h]
      exact (ih.cons x).trans (List.Perm.swap r x xs)

theorem getDispatchRecords_perm (recs : List StoredDispatchRecord) :
    (getDispatchRecords recs).Perm recs := by
  induction recs with
  | nil => exact List.Perm.refl _
  | cons x xs ih =>
    exact (insertNewest_perm x (getDispatchRecords xs)).trans (ih.cons x)

theorem insertNewest_sorted (r : StoredDispatchRecord) (l : List StoredDispatchRecord)
    (h : NewestFirst l) : NewestFirst (insertNewest r l) := by
  induction l with
  | nil => simp [insertNewest, NewestFirst]
  | cons x xs ih =>
    rw [NewestFirst, List.pairwise_cons] at h
    obtain ⟨hx, hxs⟩ := h
    by_cases hcmp : x.createdAt ≤ r.createdAt
    · simp only [insertNewest, if_pos hcmp]
      rw [NewestFirst, List.pairwise_cons]
      refine ⟨?_, ?_⟩
      · intro b hb
        rcases List.mem_cons.mp hb with hb | hb
        · rw [hb]; exact hcmp
        · exact le_trans (hx b hb) hcmp
      · rw [List.pairwise_cons]
        exact ⟨hx, hxs⟩
    · simp only [insertNewest, if_neg hcmp]
      rw [NewestFirst, List.pairwise_cons]
      refine ⟨?_, ih hxs⟩
      intro b hb
      have hb' : b ∈ r :: xs := (insertNewest_perm r xs).mem_iff.mp hb
      rcases List.mem_cons.mp hb' with hb2 | hb2
      · rw [hb2]
        exact Nat.le_of_lt (Nat.lt_of_not_le hcmp)
      · exact hx b hb2

theorem getDispatchRecords_sorted (recs : List StoredDispatchRecord) :
    NewestFirst (getDispatchRecords recs) := by
  induction recs with
  | nil => simp [getDispatchRecords, NewestFirst]
  | cons x xs ih => exact insertNewest_sorted x (getDispatchRecords xs) ih

/-! Concrete fixtures used by the witnesses, taken from the concrete
scenarios of the spec (§8): items A (price 100) and B (price 50), a cart
requesting 2×A at 100 and 1×B at 50. -/

def invAB0 : Inventory :=
  [(1, { name := "A", price := 100, stock := 5 }),
   (2, { name := "B", price := 50, stock := 0 })]

def invAB3 : Inventory :=
  [(1, { name := "A", price := 100, stock := 5 }),
   (2, { name := "B", price := 50, stock := 3 })]

def cartAB : List CartLine :=
  [{ _id := some 1, itemId := none, quantity := 2, price := 100 },
   { _id := some 2, itemId := none, quantity := 1, price := 50 }]

def mkReq (cart : List CartLine) : PurchaseRequest :=
  { cartItems := some cart, deliveryDate := some "2024-01-01",
    customerName := some "cliente", customerEmail := some "correo" }

/-- C1: for every cart in which some line fails (the per-line loop throws:
missing item or insufficient stock, also against stock already decremented
by earlier lines of the same call), the purchase leaves every inventory
item's stock unchanged — earlier lines' decrements included — and creates
no dispatch record: the whole transaction aborts. -/
theorem purchase_aborts_atomically (inv : Inventory) (req : PurchaseRequest)
    (cart : List CartLine) (hc : req.cartItems = some cart)
    (hfail : purchaseOk inv cart = false) :
    (processPurchase inv req).inventory = inv ∧ (processPurchase inv req).record = none := by
  by_cases hemp : cart.isEmpty = true
  · constructor <;> simp [processPurchase, hc, hemp]
  · have hemp' : cart.isEmpty = false := by
      cases he : cart.isEmpty
      · rfl
      · exact absurd he hemp
    by_cases hval : (strFalsy req.deliveryDate || strFalsy req.customerName ||
        strFalsy req.customerEmail) = true
    · constructor <;> simp [processPurchase, hc, hemp', hval]
    · have hval' : (strFalsy req.deliveryDate || strFalsy req.customerName ||
          strFalsy req.customerEmail) = false := by
        cases hv : (strFalsy req.deliveryDate || strFalsy req.customerName ||
            strFalsy req.customerEmail)
        · rfl
        · exact absurd hv hval
      cases hpl : processLines inv cart with
      | error e => constructor <;> simp [processPurchase, hc, hemp', hval', hpl]
      | ok out => simp [purchaseOk, hpl] at hfail

/-- C1 witness: the spec's first concrete scenario — cart 2×A, 1×B against
stocks A=5, B=0; the second line fails, A keeps stock 5, no record. -/
theorem purchase_aborts_atomically_witness :
    (mkReq cartAB).cartItems = some cartAB ∧ purchaseOk invAB0 cartAB = false ∧
      ((processPurchase invAB0 (mkReq cartAB)).inventory = invAB0 ∧
        (processPurchase invAB0 (mkReq cartAB)).record = none) :=
  ⟨rfl, by decide, purchase_aborts_atomically invAB0 (mkReq cartAB) cartAB rfl (by decide)⟩

/-- C2: for every non-empty cart whose per-line loop runs to completion
(every referenced item exists with sufficient stock at its turn), the
purchase returns 200, decrements every item's persisted stock by the total
quantity the cart requests of it (for a cart referencing distinct items,
exactly that line's quantity), and persists exactly one dispatch record
with one snapshot line per cart line, `totalAmount = Σ quantity × price`
over the cart, and status initialized to `Pendiente`. -/
theorem purchase_success_effects (inv : Inventory) (req : PurchaseRequest)
    (cart : List CartLine) (hc : req.cartItems = some cart) (hne : cart ≠ [])
    (hd : strFalsy req.deliveryDate = false) (hn : strFalsy req.customerName = false)
    (hm : strFalsy req.customerEmail = false) (hok : purchaseOk inv cart = true) :
    (processPurchase inv req).status = 200 ∧
    (∀ id, (findEntry (processPurchase inv req).inventory id).map InventoryItem.stock =
      (findEntry inv id).map (fun it => it.stock - sumQty cart id)) ∧
    ∃ r, (processPurchase inv req).record = some r ∧
      List.Forall₂ (lineSnapshot inv) cart r.items ∧
      r.totalAmount = linesTotal cart ∧ r.status = "Pendiente" := by
  cases hpl : processLines inv cart with
  | error e => simp [purchaseOk, hpl] at hok
  | ok out =>
    rcases out with ⟨inv2, ds, t⟩
    rw [processPurchase_ok_eq inv req cart inv2 ds t hc hne hd hn hm hpl]
    refine ⟨rfl, ?_, ?_⟩
    · intro id
      exact processLines_stock cart inv inv2 ds t hpl id
    · exact ⟨_, rfl, processLines_snapshots cart inv inv2 ds t hpl,
        processLines_total cart inv inv2 ds t hpl, rfl⟩

/-- C2 witness: the spec's second concrete scenario — cart 2×A at 100,
1×B at 50 against stocks A=5, B=3 succeeds (A→3, B→2, total 250). -/
theorem purchase_success_effects_witness :
    (mkReq cartAB).cartItems = some cartAB ∧ cartAB ≠ [] ∧
      strFalsy (mkReq cartAB).deliveryDate = false ∧
      strFalsy (mkReq cartAB).customerName = false ∧
      strFalsy (mkReq cartAB).customerEmail = false ∧
      purchaseOk invAB3 cartAB = true ∧
      ((processPurchase invAB3 (mkReq cartAB)).status = 200 ∧
       (∀ id, (findEntry (processPurchase invAB3 (mkReq cartAB)).inventory id).map
           InventoryItem.stock =
         (findEntry invAB3 id).map (fun it => it.stock - sumQty cartAB id)) ∧
       ∃ r, (processPurchase invAB3 (mkReq cartAB)).record = some r ∧
         List.Forall₂ (lineSnapshot invAB3) cartAB r.items ∧
         r.totalAmount = linesTotal cartAB ∧ r.status = "Pendiente") :=
  ⟨rfl, by decide, rfl, rfl, rfl, by decide,
    purchase_success_effects invAB3 (mkReq cartAB) cartAB rfl (by decide) rfl rfl rfl (by decide)⟩

/-- C3: per-line processing is fail-fast and in cart input order: when the
lines before some failing line all succeed, the purchase fails with exactly
that line's error message — whatever the lines after it are (the
conclusion does not depend on `rest`, so no later line is examined) — as a
single 500 message naming the missing reference, or the item together with
its current stock and the requested quantity (`lineError` fails on stock
exactly when `stock < quantity`). -/
theorem purchase_fail_fast (inv : Inventory) (req : PurchaseRequest)
    (pre : List CartLine) (line : CartLine) (rest : List CartLine)
    (inv1 : Inventory) (ds : List DispatchLine) (t : Int) (e : String)
    (hc : req.cartItems = some (pre ++ line :: rest))
    (hd : strFalsy req.deliveryDate = false) (hn : strFalsy req.customerName = false)
    (hm : strFalsy req.customerEmail = false)
    (hpre : processLines inv pre = .ok (inv1, ds, t))
    (herr : lineError inv1 line = some e) :
    processPurchase inv req =
      ⟨500, "Error al procesar la compra: " ++ e, inv, none⟩ := by
  have hall : processLines inv (pre ++ line :: rest) = .error e :=
    processLines_append_error pre inv inv1 ds t e (line :: rest) hpre
      (processLines_cons_error inv1 line rest e herr)
  exact processPurchase_error_eq inv req (pre ++ line :: rest) e hc (by simp) hd hn hm hall

/-- C3 witness: a cart whose first line references the missing id 99 fails
with the not-found message for 99, with a further (valid) line behind it. -/
theorem purchase_fail_fast_witness :
    (mkReq ([] ++ { _id := some 99, itemId := none, quantity := 1, price := 10 } ::
        cartAB)).cartItems =
      some ([] ++ { _id := some 99, itemId := none, quantity := 1, price := 10 } :: cartAB) ∧
    processLines invAB3 [] = .ok (invAB3, [], 0) ∧
    lineError invAB3 { _id := some 99, itemId := none, quantity := 1, price := 10 } =
      some (notFoundMsg (some 99)) ∧
    processPurchase invAB3
        (mkReq ([] ++ { _id := some 99, itemId := none, quantity := 1, price := 10 } :: cartAB)) =
      ⟨500, "Error al procesar la compra: " ++ notFoundMsg (some 99), invAB3, none⟩ :=
  ⟨rfl, rfl, by decide,
    purchase_fail_fast invAB3 _ [] _ cartAB invAB3 [] 0 (notFoundMsg (some 99))
      rfl rfl rfl rfl rfl (by decide)⟩

/-- C4: a purchase request whose cart is absent or empty, or whose
`deliveryDate`, `customerName` or `customerEmail` is missing, is rejected
with HTTP 400 before any transaction work: the inventory is untouched and
no dispatch record is created. -/
theorem purchase_validation_400 (inv : Inventory) (req : PurchaseRequest)
    (h : req.cartItems = none ∨ req.cartItems = some [] ∨ req.deliveryDate = none ∨
      req.customerName = none ∨ req.customerEmail = none) :
    (processPurchase inv req).status = 400 ∧ (processPurchase inv req).inventory = inv ∧
      (processPurchase inv req).record = none := by
  have fields : (strFalsy req.deliveryDate || strFalsy req.customerName ||
      strFalsy req.customerEmail) = true →
      (processPurchase inv req).status = 400 ∧ (processPurchase inv req).inventory = inv ∧
        (processPurchase inv req).record = none := by
    intro hval
    cases hc : req.cartItems with
    | none => refine ⟨?_, ?_, ?_⟩ <;> simp [processPurchase, hc]
    | some cart =>
      cases cart with
      | nil => refine ⟨?_, ?_, ?_⟩ <;> simp [processPurchase, hc]
      | cons a l => refine ⟨?_, ?_, ?_⟩ <;> simp [processPurchase, hc, hval]
  rcases h with h | h | h | h | h
  · refine ⟨?_, ?_, ?_⟩ <;> simp [processPurchase, h]
  · refine ⟨?_, ?_, ?_⟩ <;> simp [processPurchase, h]
  · exact fields (by simp [h, strFalsy])
  · exact fields (by simp [h, strFalsy])
  · exact fields (by simp [h, strFalsy])

/-- C4 witness: a request with a cart but no `customerEmail` is rejected
with 400 and no side effects. -/
theorem purchase_validation_400_witness :
    ({ mkReq cartAB with customerEmail := none }.cartItems = none ∨
      { mkReq cartAB with customerEmail := none }.cartItems = some [] ∨
      { mkReq cartAB with customerEmail := none }.deliveryDate = none ∨
      { mkReq cartAB with customerEmail := none }.customerName = none ∨
      { mkReq cartAB with customerEmail := none }.customerEmail = none) ∧
    ((processPurchase invAB3 { mkReq cartAB with customerEmail := none }).status = 400 ∧
     (processPurchase invAB3 { mkReq cartAB with customerEmail := none }).inventory = invAB3 ∧
     (processPurchase invAB3 { mkReq cartAB with customerEmail := none }).record = none) :=
  ⟨Or.inr (Or.inr (Or.inr (Or.inr rfl))),
    purchase_validation_400 invAB3 { mkReq cartAB with customerEmail := none }
      (Or.inr (Or.inr (Or.inr (Or.inr rfl))))⟩

/-- C5: for every successful purchase, the dispatch record's lines are in
the `lineSnapshot` relation with the cart's lines: each entry's
`priceAtPurchase` equals the unit price submitted in the corresponding
cart line and its `quantity` equals the submitted quantity — for every
inventory whatsoever, in particular regardless of the referenced item's
catalog `price` — and its `name` is the snapshot of the referenced item's
name as read during processing (which the loop never mutates, so it equals
the name in the pre-purchase inventory). -/
theorem dispatch_line_snapshots (inv : Inventory) (req : PurchaseRequest)
    (cart : List CartLine) (hc : req.cartItems = some cart) (hne : cart ≠ [])
    (hd : strFalsy req.deliveryDate = false) (hn : strFalsy req.customerName = false)
    (hm : strFalsy req.customerEmail = false) (hok : purchaseOk inv cart = true) :
    ∃ r, (processPurchase inv req).record = some r ∧
      List.Forall₂ (lineSnapshot inv) cart r.items := by
  cases hpl : processLines inv cart with
  | error e => simp [purchaseOk, hpl] at hok
  | ok out =>
    rcases out with ⟨inv2, ds, t⟩
    rw [processPurchase_ok_eq inv req cart inv2 ds t hc hne hd hn hm hpl]
    exact ⟨_, rfl, processLines_snapshots cart inv inv2 ds t hpl⟩

def invPriceGap : Inventory := [(1, { name := "A", price := 999, stock := 5 })]

def cartPriceGap : List CartLine := [{ _id := some 1, itemId := none, quantity := 2, price := 100 }]

/-- C5 witness: the catalog price of A is 999 but the cart submits 100;
the snapshot keeps the cart's 100 and quantity 2. -/
theorem dispatch_line_snapshots_witness :
    (mkReq cartPriceGap).cartItems = some cartPriceGap ∧ cartPriceGap ≠ [] ∧
      strFalsy (mkReq cartPriceGap).deliveryDate = false ∧
      strFalsy (mkReq cartPriceGap).customerName = false ∧
      strFalsy (mkReq cartPriceGap).customerEmail = false ∧
      purchaseOk invPriceGap cartPriceGap = true ∧
      ∃ r, (processPurchase invPriceGap (mkReq cartPriceGap)).record = some r ∧
        List.Forall₂ (lineSnapshot invPriceGap) cartPriceGap r.items :=
  ⟨rfl, by decide, rfl, rfl, rfl, by decide,
    dispatch_line_snapshots invPriceGap (mkReq cartPriceGap) cartPriceGap rfl (by decide)
      rfl rfl rfl (by decide)⟩

/-- C6: the `GET /api/dispatch-records` operation returns all dispatch
records (a permutation of the stored collection) ordered newest first by
creation time.  The route handler is not among the repository files under
src, so `getDispatchRecords` is modelled from the spec's sentence. -/
theorem dispatch_records_newest_first (recs : List StoredDispatchRecord) :
    (getDispatchRecords recs).Perm recs ∧ NewestFirst (getDispatchRecords recs) :=
  ⟨getDispatchRecords_perm recs, getDispatchRecords_sorted recs⟩

def reqUnderscoreId : PurchaseRequest :=
  mkReq [{ _id := some 1, itemId := none, quantity := 1, price := 100 }]

def reqItemIdOnly : PurchaseRequest :=
  mkReq [{ _id := none, itemId := some 1, quantity := 1, price := 100 }]

/-- C7 counterexample: the claim that a cart line may carry its item
reference under either field name is false on the code — with item 1 in
stock, the request whose line uses `_id` succeeds (200) while the
otherwise-identical request whose line uses only `itemId` fails (500) with
the not-found message for an `undefined` id: the two requests do not
succeed identically. -/
theorem cart_line_itemId_not_accepted :
    (processPurchase invPriceGap reqUnderscoreId).status = 200 ∧
    (processPurchase invPriceGap reqItemIdOnly).status = 500 ∧
    (processPurchase invPriceGap reqItemIdOnly).message =
      "Error al procesar la compra: Producto con ID undefined no encontrado en el inventario." ∧
    processPurchase invPriceGap reqItemIdOnly ≠ processPurchase invPriceGap reqUnderscoreId := by
  refine ⟨rfl, rfl, rfl, ?_⟩
  decide

/-- C7 amended: the purchase endpoint reads each cart line's item
reference only from the field `_id`; a request whose first cart line
supplies no `_id` (whatever its `itemId` field holds) fails with the
not-found error for the `undefined` id — 500, inventory unchanged, no
dispatch record — instead of resolving the item. -/
theorem cart_line_reference_only_underscore_id (inv : Inventory) (req : PurchaseRequest)
    (line : CartLine) (rest : List CartLine)
    (hc : req.cartItems = some (line :: rest)) (hid : line._id = none)
    (hd : strFalsy req.deliveryDate = false) (hn : strFalsy req.customerName = false)
    (hm : strFalsy req.customerEmail = false) :
    processPurchase inv req =
      ⟨500, "Error al procesar la compra: " ++ notFoundMsg none, inv, none⟩ :=
  processPurchase_error_eq inv req (line :: rest) (notFoundMsg none) hc (by simp) hd hn hm
    (processLines_cons_id_none inv line rest hid)

/-- C7 amended witness: the `itemId`-only request of the counterexample
falls under the amended statement. -/
theorem cart_line_reference_only_underscore_id_witness :
    reqItemIdOnly.cartItems =
      some ({ _id := none, itemId := some 1, quantity := 1, price := 100 } :: []) ∧
    ({ _id := none, itemId := some 1, quantity := 1, price := 100 } : CartLine)._id = none ∧
    processPurchase invPriceGap reqItemIdOnly =
      ⟨500, "Error al procesar la compra: " ++ notFoundMsg none, invPriceGap, none⟩ :=
  ⟨rfl, rfl,
    cart_line_reference_only_underscore_id invPriceGap reqItemIdOnly
      { _id := none, itemId := some 1, quantity := 1, price := 100 } [] rfl rfl rfl rfl rfl⟩

theorem stock_decrement_twice (inv inv1 inv2 : Inventory) (cart : List CartLine) (id : ItemId)
    (hA : (findEntry inv1 id).map InventoryItem.stock =
      (findEntry inv id).map (fun it => it.stock - sumQty cart id))
    (hB : (findEntry inv2 id).map InventoryItem.stock =
      (findEntry inv1 id).map (fun it => it.stock - sumQty cart id)) :
    (findEntry inv2 id).map InventoryItem.stock =
      (findEntry inv id).map (fun it => it.stock - 2 * sumQty cart id) := by
  cases h0 : findEntry inv id with
  | none =>
    rw [h0] at hA
    cases h1 : findEntry inv1 id with
    | none =>
      rw [h1] at hB
      cases h2 : findEntry inv2 id with
      | none => simp
      | some it2 => rw [h2] at hB; simp at hB
    | some it1 => rw [h1] at hA; simp at hA
  | some it0 =>
    rw [h0] at hA
    cases h1 : findEntry inv1 id with
    | none => rw [h1] at hA; simp at hA
    | some it1 =>
      rw [h1] at hA hB
      cases h2 : findEntry inv2 id with
      | none => rw [h2] at hB; simp at hB
      | some it2 =>
        rw [h2] at hB
        have hA' : it1.stock = it0.stock - sumQty cart id := by simpa using hA
        have hB' : it2.stock = it1.stock - sumQty cart id := by simpa using hB
        have hend : it2.stock = it0.stock - 2 * sumQty cart id := by omega
        simp [hend]

/-- C8: purchase processing is not idempotent — when a successful purchase
request is replayed and the per-line loop still completes against the
committed inventory, the replay succeeds again: every referenced item's
stock ends decremented by twice the cart's quantity for it, and a second
dispatch record is persisted (no deduplication of replays). -/
theorem purchase_not_idempotent (inv : Inventory) (req : PurchaseRequest)
    (cart : List CartLine) (hc : req.cartItems = some cart) (hne : cart ≠ [])
    (hd : strFalsy req.deliveryDate = false) (hn : strFalsy req.customerName = false)
    (hm : strFalsy req.customerEmail = false)
    (h1 : purchaseOk inv cart = true)
    (h2 : purchaseOk (processPurchase inv req).inventory cart = true) :
    (processPurchase (processPurchase inv req).inventory req).status = 200 ∧
    (∃ r, (processPurchase (processPurchase inv req).inventory req).record = some r) ∧
    ∀ id, (findEntry (processPurchase (processPurchase inv req).inventory req).inventory id).map
        InventoryItem.stock =
      (findEntry inv id).map (fun it => it.stock - 2 * sumQty cart id) := by
  cases hpl1 : processLines inv cart with
  | error e => simp [purchaseOk, hpl1] at h1
  | ok out1 =>
    rcases out1 with ⟨invA, ds1, t1⟩
    have hrw1 := processPurchase_ok_eq inv req cart invA ds1 t1 hc hne hd hn hm hpl1
    rw [hrw1] at h2 ⊢
    cases hpl2 : processLines invA cart with
    | error e => simp only [hrw1] at h2; simp [purchaseOk, hpl2] at h2
    | ok out2 =>
      rcases out2 with ⟨invB, ds2, t2⟩
      rw [processPurchase_ok_eq invA req cart invB ds2 t2 hc hne hd hn hm hpl2]
      refine ⟨rfl, ⟨_, rfl⟩, ?_⟩
      intro id
      exact stock_decrement_twice inv invA invB cart id
        (processLines_stock cart inv invA ds1 t1 hpl1 id)
        (processLines_stock cart invA invB ds2 t2 hpl2 id)

/-- C8 witness: replaying the 2×A purchase against stock 5 twice commits
stock 1 = 5 − 2·2 and a second record. -/
theorem purchase_not_idempotent_witness :
    (mkReq cartPriceGap).cartItems = some cartPriceGap ∧ cartPriceGap ≠ [] ∧
      strFalsy (mkReq cartPriceGap).deliveryDate = false ∧
      strFalsy (mkReq cartPriceGap).customerName = false ∧
      strFalsy (mkReq cartPriceGap).customerEmail = false ∧
      purchaseOk invPriceGap cartPriceGap = true ∧
      purchaseOk (processPurchase invPriceGap (mkReq cartPriceGap)).inventory cartPriceGap = true ∧
      ((processPurchase (processPurchase invPriceGap (mkReq cartPriceGap)).inventory
          (mkReq cartPriceGap)).status = 200 ∧
       (∃ r, (processPurchase (processPurchase invPriceGap (mkReq cartPriceGap)).inventory
          (mkReq cartPriceGap)).record = some r) ∧
       ∀ id, (findEntry (processPurchase (processPurchase invPriceGap (mkReq cartPriceGap)).inventory
            (mkReq cartPriceGap)).inventory id).map InventoryItem.stock =
         (findEntry invPriceGap id).map (fun it => it.stock - 2 * sumQty cartPriceGap id)) :=
  ⟨rfl, by decide, rfl, rfl, rfl, by decide, by decide,
    purchase_not_idempotent invPriceGap (mkReq cartPriceGap) cartPriceGap rfl (by decide)
      rfl rfl rfl (by decide) (by decide)⟩

def fullStockReq (id : ItemId) (qty p : Int) : PurchaseRequest :=
  mkReq [{ _id := some id, itemId := none, quantity := qty, price := p }]

/-- C9: the invariant `stock ≥ 0` is preserved by every purchase call —
from a state where every item's stock is non-negative, the committed
post-state (success or failure) again has every stock non-negative — and a
purchase requesting exactly an item's entire available stock succeeds and
leaves that item's stock at 0. -/
theorem stock_nonneg_invariant :
    (∀ (inv : Inventory) (req : PurchaseRequest), invNonneg inv →
      invNonneg (processPurchase inv req).inventory) ∧
    (∀ (inv : Inventory) (id : ItemId) (item : InventoryItem) (p : Int),
      findEntry inv id = some item →
      (processPurchase inv (fullStockReq id item.stock p)).status = 200 ∧
      (findEntry (processPurchase inv (fullStockReq id item.stock p)).inventory id).map
        InventoryItem.stock = some 0) := by
  constructor
  · intro inv req hinv
    rcases processPurchase_inventory_cases inv req with h | ⟨cart, inv2, ds, t, hc, hpl, h⟩
    · rw [h]; exact hinv
    · rw [h]; exact processLines_nonneg cart inv inv2 ds t hinv hpl
  · intro inv id item p hfind
    have hst :
        ¬(item.stock <
          ({ _id := some id, itemId := none, quantity := item.stock, price := p } :
            CartLine).quantity) :=
      lt_irrefl item.stock
    have hpl := processLines_cons_step_ok inv
      { _id := some id, itemId := none, quantity := item.stock, price := p } [] id item
      (saveItem inv id { item with stock := item.stock - item.stock }) [] 0
      rfl hfind hst rfl
    rw [processPurchase_ok_eq inv (fullStockReq id item.stock p) _ _ _ _ rfl (by simp)
      rfl rfl rfl hpl]
    refine ⟨rfl, ?_⟩
    rw [findEntry_saveItem_self, hfind]
    simp

/-- C9 witness: part one at the A=5/B=3 state and the 2×A,1×B request;
part two buying out all 5 units of A. -/
theorem stock_nonneg_invariant_witness :
    (invNonneg invAB3 ∧ invNonneg (processPurchase invAB3 (mkReq cartAB)).inventory) ∧
    (findEntry invAB3 1 = some { name := "A", price := 100, stock := 5 } ∧
      (processPurchase invAB3 (fullStockReq 1 5 100)).status = 200 ∧
      (findEntry (processPurchase invAB3 (fullStockReq 1 5 100)).inventory 1).map
        InventoryItem.stock = some 0) :=
  ⟨⟨by decide, stock_nonneg_invariant.1 invAB3 (mkReq cartAB) (by decide)⟩,
    ⟨rfl, stock_nonneg_invariant.2 invAB3 1 { name := "A", price := 100, stock := 5 } 100 rfl⟩⟩

def twoLineReq (id : ItemId) (q1 q2 p1 p2 : Int) : PurchaseRequest :=
  mkReq [{ _id := some id, itemId := none, quantity := q1, price := p1 },
         { _id := some id, itemId := none, quantity := q2, price := p2 }]

/-- C10: for a cart with two lines referencing the same item (quantities
non-negative, as cart quantities are), the second line's stock check runs
against the stock already decremented by the first line inside the same
transaction: the purchase succeeds exactly when the item's initial stock
covers the sum of both quantities, and on success the item's stock
decreases by that sum. -/
theorem duplicate_lines_sequential_stock (inv : Inventory) (id : ItemId)
    (item : InventoryItem) (q1 q2 p1 p2 : Int)
    (hfind : findEntry inv id = some item) (hq1 : 0 ≤ q1) (hq2 : 0 ≤ q2) :
    ((processPurchase inv (twoLineReq id q1 q2 p1 p2)).status = 200 ↔
      q1 + q2 ≤ item.stock) ∧
    (q1 + q2 ≤ item.stock →
      (findEntry (processPurchase inv (twoLineReq id q1 q2 p1 p2)).inventory id).map
        InventoryItem.stock = some (item.stock - (q1 + q2))) := by
  have hfind1 : findEntry (saveItem inv id { item with stock := item.stock - q1 }) id =
      some { item with stock := item.stock - q1 } := by
    rw [findEntry_saveItem_self, hfind]
    rfl
  by_cases hA : item.stock < q1
  · have hpl : processLines inv
        [{ _id := some id, itemId := none, quantity := q1, price := p1 },
         { _id := some id, itemId := none, quantity := q2, price := p2 }] =
        .error (insufficientMsg item.name item.stock q1) :=
      processLines_cons_short inv _ _ id item rfl hfind hA
    rw [processPurchase_error_eq inv (twoLineReq id q1 q2 p1 p2) _ _ rfl (by simp)
      rfl rfl rfl hpl]
    refine ⟨⟨fun h => by simp at h, fun hle => absurd hle (by omega)⟩, ?_⟩
    intro hle
    exact absurd hle (by omega)
  · by_cases hC : item.stock - q1 < q2
    · have herr2 : processLines (saveItem inv id { item with stock := item.stock - q1 })
          [{ _id := some id, itemId := none, quantity := q2, price := p2 }] =
          .error (insufficientMsg item.name (item.stock - q1) q2) :=
        processLines_cons_short _ _ _ id { item with stock := item.stock - q1 } rfl hfind1 hC
      have hpl : processLines inv
          [{ _id := some id, itemId := none, quantity := q1, price := p1 },
           { _id := some id, itemId := none, quantity := q2, price := p2 }] =
          .error (insufficientMsg item.name (item.stock - q1) q2) :=
        processLines_cons_step_error inv _ _ id item _ rfl hfind hA herr2
      rw [processPurchase_error_eq inv (twoLineReq id q1 q2 p1 p2) _ _ rfl (by simp)
        rfl rfl rfl hpl]
      refine ⟨⟨fun h => by simp at h, fun hle => absurd hle (by omega)⟩, ?_⟩
      intro hle
      exact absurd hle (by omega)
    · have hpl2 : processLines (saveItem inv id { item with stock := item.stock - q1 })
          [{ _id := some id, itemId := none, quantity := q2, price := p2 }] =
          .ok (saveItem (saveItem inv id { item with stock := item.stock - q1 }) id
                 { item with stock := item.stock - q1 - q2 },
               [{ itemId := id, name := item.name, quantity := q2, priceAtPurchase := p2 }],
               p2 * q2 + 0) :=
        processLines_cons_step_ok _ _ _ id { item with stock := item.stock - q1 } _ _ _
          rfl hfind1 hC rfl
      have hpl : processLines inv
          [{ _id := some id, itemId := none, quantity := q1, price := p1 },
           { _id := some id, itemId := none, quantity := q2, price := p2 }] =
          .ok (saveItem (saveItem inv id { item with stock := item.stock - q1 }) id
                 { item with stock := item.stock - q1 - q2 },
               [{ itemId := id, name := item.name, quantity := q1, priceAtPurchase := p1 },
                { itemId := id, name := item.name, quantity := q2, priceAtPurchase := p2 }],
               p1 * q1 + (p2 * q2 + 0)) :=
        processLines_cons_step_ok inv _ _ id item _ _ _ rfl hfind hA hpl2
      rw [processPurchase_ok_eq inv (twoLineReq id q1 q2 p1 p2) _ _ _ _ rfl (by simp)
        rfl rfl rfl hpl]
      refine ⟨⟨fun _ => by omega, fun _ => rfl⟩, ?_⟩
      intro hle
      rw [findEntry_saveItem_self, hfind1]
      simp only [Option.map]
      have : item.stock - q1 - q2 = item.stock - (q1 + q2) := by omega
      simp [this]

/-- C10 witness: two lines of 2 and 3 units of item 1 against stock 5 —
5 ≤ 5, so the purchase succeeds and the stock ends at 0. -/
theorem duplicate_lines_sequential_stock_witness :
    findEntry invPriceGap 1 = some { name := "A", price := 999, stock := 5 } ∧
    (0:Int) ≤ 2 ∧ (0:Int) ≤ 3 ∧
    (((processPurchase invPriceGap (twoLineReq 1 2 3 100 100)).status = 200 ↔
       (2:Int) + 3 ≤ (5:Int)) ∧
     ((2:Int) + 3 ≤ (5:Int) →
       (findEntry (processPurchase invPriceGap (twoLineReq 1 2 3 100 100)).inventory 1).map
         InventoryItem.stock = some (5 - (2 + 3)))) :=
  ⟨rfl, by decide, by decide,
    duplicate_lines_sequential_stock invPriceGap 1 { name := "A", price := 999, stock := 5 }
      2 3 100 100 rfl (by decide) (by decide)⟩

end MasterBike
